import Mathlib

/-!
Verification of the request-execution core of the `reqwest` HTTP client
(redirect engine, decoder detection, response helpers), as a shallow
embedding of the Rust sources:

  - `src/async_impl/client.rs`   (async redirect engine, `PendingRequest::poll`)
  - `src/client.rs`              (blocking redirect engine, `RequestBuilder::send`)
  - `src/async_impl/decoder.rs`  (`Decoder::detect`, `detect_gzip`, `detect_brotli`)
  - `src/async_impl/response.rs` (`error_for_status`, `From<http::Response>`)

Header collections are modelled as ordered association lists of
(name, value) pairs; header names are case-insensitive in the `http`
crate and are modelled here as already-normalized lowercase strings.
Header values are modelled as strings (the valid-UTF-8 case; the engine's
treatment of a Location value that fails to parse is folded into the
abstract URL-resolution function, which may fail).

URL parsing and resolution (the `url` crate) are out of scope of the
repository; URLs are modelled structurally and `Url::join` is an abstract
parameter of the engine.

`redirect.rs` (the redirect policy, `check_redirect` and
`remove_sensitive_headers`) and `body.rs` (`can_reset`) are not among the
provided sources; those definitions are modelled from the spec and marked
as such in their doc comments.
-/

namespace Reqwest

/-- A header collection: ordered list of (lowercase name, value) pairs,
preserving duplicates, modelling `http::HeaderMap`. -/
abbrev HeaderMap := List (String × String)

/-- All values stored under a name, in order (`HeaderMap::get_all`). -/
def HeaderMap.getAll (h : HeaderMap) (n : String) : List String :=
  (h.filter (fun p => p.1 == n)).map Prod.snd

/-- The first value stored under a name (`HeaderMap::get`). -/
def HeaderMap.get (h : HeaderMap) (n : String) : Option String :=
  (h.getAll n).head?

/-- Whether any value is stored under a name (`HeaderMap::contains_key`). -/
def HeaderMap.containsKey (h : HeaderMap) (n : String) : Bool :=
  h.any (fun p => p.1 == n)

/-- Remove every value stored under a name (`HeaderMap::remove` drops all
values associated with the key). -/
def HeaderMap.removeAll (h : HeaderMap) (n : String) : HeaderMap :=
  h.filter (fun p => p.1 != n)

/-- Insert a value under a name, replacing any existing values
(`HeaderMap::insert` / typed `Headers::set`). -/
def HeaderMap.insert (h : HeaderMap) (n v : String) : HeaderMap :=
  h.removeAll n ++ [(n, v)]

/-- Wire name constant from the sources. -/
def TRANSFER_ENCODING : String := "transfer-encoding"

/-- Wire name constant from the sources. -/
def CONTENT_ENCODING : String := "content-encoding"

/-- Wire name constant from the sources. -/
def CONTENT_TYPE : String := "content-type"

/-- Wire name constant from the sources. -/
def CONTENT_LENGTH : String := "content-length"

/-- Wire name constant from the sources. -/
def ACCEPT_ENCODING : String := "accept-encoding"

/-- Wire name constant from the sources. -/
def RANGE : String := "range"

/-- Wire name constant from the sources. -/
def LOCATION : String := "location"

/-- Wire name constant from the sources. -/
def REFERER : String := "referer"

/-- Wire name constant from the sources. -/
def AUTHORIZATION : String := "authorization"

/-- Wire name constant from the sources. -/
def COOKIE : String := "cookie"

/-- Wire name constant from the sources. -/
def PROXY_AUTHORIZATION : String := "proxy-authorization"

/-- Wire name constant from the sources. -/
def USER_AGENT : String := "user-agent"

/-- Wire name constant from the sources. -/
def ACCEPT : String := "accept"

/-- Structural model of a parsed `url::Url`. Parsing and serialization of
URLs are external to the repository; only the components the engine reads
and writes are modelled. -/
structure Url where
  scheme : String
  username : String
  password : Option String
  host : Option String
  port : Option Nat
  path : String
  query : Option String
  fragment : Option String
deriving DecidableEq, Repr

/-- Model of `Url::set_username`: the `url` crate refuses (returns `Err`,
which `make_referer` ignores) when the URL has no host. -/
def Url.set_username (u : Url) (name : String) : Url :=
  match u.host with
  | some _ => { u with username := name }
  | none => u

/-- Model of `Url::set_password`: refused (and ignored by the caller) when
the URL has no host. -/
def Url.set_password (u : Url) (p : Option String) : Url :=
  match u.host with
  | some _ => { u with password := p }
  | none => u

/-- Model of `Url::set_fragment`, which never fails. -/
def Url.set_fragment (u : Url) (f : Option String) : Url :=
  { u with fragment := f }

/-- Invariant guaranteed by the `url` crate: a URL carrying a username or
a password necessarily has a host (credentials live in the authority
component, which requires a host). -/
def Url.wf (u : Url) : Bool :=
  u.host.isSome || (u.username == "" && u.password.isNone)

/-- A rendering of a URL into a header value, used for the synthesized
`Referer` value. Serialization is external to the repository; the claims
never inspect this string, only the URL it was rendered from. -/
def Url.render (u : Url) : String :=
  u.scheme ++ ":" ++
    (match u.host with
     | some host => "//" ++ host
     | none => "") ++
    u.path ++
    (match u.query with
     | some q => "?" ++ q
     | none => "") ++
    (match u.fragment with
     | some f => "#" ++ f
     | none => "")

/-- Embedding of `make_referer` (identical in `src/async_impl/client.rs`
and `src/client.rs`): no referer on an HTTPS-to-HTTP transition; otherwise
the previous URL with credentials and fragment dropped. The final
`HeaderValue` parse of the serialized URL always succeeds (URL
serializations are visible ASCII), so the result is modelled as the URL
itself. -/
def make_referer (next previous : Url) : Option Url :=
  if next.scheme == "http" && previous.scheme == "https" then
    none
  else
    some (((previous.set_username "").set_password none).set_fragment none)

/-- Outcome of decoder detection (`Inner` in `src/async_impl/decoder.rs`):
`PlainText` passes chunks through unchanged; `Gzip` / `Brotli` stand for
the corresponding pending decompressor being attached to the stream. -/
inductive Decoder
  | PlainText
  | Gzip
  | Brotli
deriving DecidableEq, Repr

/-- Embedding of `Decoder::detect_gzip` (`src/async_impl/decoder.rs`
lines 113-143): the flag says whether a gzip decompressor is chosen, and
the returned map is the header collection after the in-place mutation. -/
def Decoder.detect_gzip (headers : HeaderMap) : Bool × HeaderMap :=
  let content_encoding_gzip :=
    (headers.getAll CONTENT_ENCODING).any (fun enc => enc == "gzip")
  let is_gzip :=
    content_encoding_gzip ||
      (headers.getAll TRANSFER_ENCODING).any (fun enc => enc == "gzip")
  let is_gzip :=
    if is_gzip then
      match headers.get CONTENT_LENGTH with
      | some content_length => if content_length == "0" then false else is_gzip
      | none => is_gzip
    else is_gzip
  if is_gzip then
    (true, (headers.removeAll CONTENT_ENCODING).removeAll CONTENT_LENGTH)
  else
    (false, headers)

/-- Embedding of `Decoder::detect_brotli` (`src/async_impl/decoder.rs`
lines 145-175), same shape as gzip detection with token "br". -/
def Decoder.detect_brotli (headers : HeaderMap) : Bool × HeaderMap :=
  let content_encoding_br :=
    (headers.getAll CONTENT_ENCODING).any (fun enc => enc == "br")
  let is_brotli :=
    content_encoding_br ||
      (headers.getAll TRANSFER_ENCODING).any (fun enc => enc == "br")
  let is_brotli :=
    if is_brotli then
      match headers.get CONTENT_LENGTH with
      | some content_length => if content_length == "0" then false else is_brotli
      | none => is_brotli
    else is_brotli
  if is_brotli then
    (true, (headers.removeAll CONTENT_ENCODING).removeAll CONTENT_LENGTH)
  else
    (false, headers)

/-- Embedding of `Decoder::detect` (`src/async_impl/decoder.rs` lines
183-208) with both the `gzip` and `brotli` features compiled in: returns
the chosen decoder variant and the header collection after the in-place
mutations. -/
def Decoder.detect (headers : HeaderMap) (check_gzip check_brotli : Bool) :
    Decoder × HeaderMap :=
  if !check_gzip && !check_brotli then
    (Decoder.PlainText, headers)
  else
    match Decoder.detect_gzip headers with
    | (true, h) => (Decoder.Gzip, h)
    | (false, h) =>
      match Decoder.detect_brotli h with
      | (true, h2) => (Decoder.Brotli, h2)
      | (false, h2) => (Decoder.PlainText, h2)

/-- HTTP status codes, as in the `http` crate. -/
abbrev StatusCode := Nat

/-- Model of `StatusCode::is_client_error` (400..=499). -/
def StatusCode.is_client_error (s : StatusCode) : Bool :=
  decide (400 ≤ s) && decide (s < 500)

/-- Model of `StatusCode::is_server_error` (500..=599). -/
def StatusCode.is_server_error (s : StatusCode) : Bool :=
  decide (500 ≤ s) && decide (s < 600)

/-- Status constant `StatusCode::MOVED_PERMANENTLY`. -/
def MOVED_PERMANENTLY : StatusCode := 301

/-- Status constant `StatusCode::FOUND`. -/
def FOUND : StatusCode := 302

/-- Status constant `StatusCode::SEE_OTHER`. -/
def SEE_OTHER : StatusCode := 303

/-- Status constant `StatusCode::TEMPORARY_REDIRECT`. -/
def TEMPORARY_REDIRECT : StatusCode := 307

/-- Status constant `StatusCode::PERMANENT_REDIRECT`. -/
def PERMANENT_REDIRECT : StatusCode := 308

/-- Request methods, as in the sources. -/
inductive Method
  | GET
  | HEAD
  | POST
  | PUT
  | PATCH
  | DELETE
  | OPTIONS
deriving DecidableEq, Repr

/-- Body bytes. -/
abbrev Bytes := List Nat

/-- The error kinds the verified claims are about (`src/error.rs` is
external to the provided sources; only the constructors invoked by the
embedded code are modelled, each carrying exactly the data the call sites
pass). -/
inductive ErrorKind
  | statusCode (url : Url) (status : StatusCode)
  | loopDetected (url : Url)
  | tooManyRedirects (url : Url)
deriving DecidableEq, Repr

/-- Model of the async `Response` (`src/async_impl/response.rs`): the
fields the verified claims read. The body decoder is represented by the
detection outcome. -/
structure Response where
  status : StatusCode
  headers : HeaderMap
  url : Url
  body : Decoder
  version : Nat
deriving DecidableEq, Repr

/-- Embedding of `Response::error_for_status` (`src/async_impl/response.rs`
lines 205-212): an error carrying the response URL and status exactly when
the status is a client or server error, otherwise the response itself. -/
def Response.error_for_status (r : Response) : Except ErrorKind Response :=
  if r.status.is_client_error || r.status.is_server_error then
    Except.error (ErrorKind.statusCode r.url r.status)
  else
    Except.ok r

/-- Embedding of `Response::error_for_status_ref` (lines 235-242): same
condition, error carries a clone of the URL, success returns the same
response (by reference in Rust). -/
def Response.error_for_status_ref (r : Response) : Except ErrorKind Response :=
  if r.status.is_client_error || r.status.is_server_error then
    Except.error (ErrorKind.statusCode r.url r.status)
  else
    Except.ok r

/-- Model of an `http::Response` as consumed by the `From` impl
(`src/async_impl/response.rs` lines 255-274): parts plus the optional
`ResponseUrl` extension slot of `parts.extensions`. -/
structure HttpResponse where
  status : StatusCode
  headers : HeaderMap
  version : Nat
  response_url : Option Url
deriving DecidableEq, Repr

/-- The fallback URL `Url::parse("http://no.url.provided.local")` used by
the `From<http::Response<T>>` impl when no `ResponseUrl` extension is
present. -/
def no_url_provided : Url :=
  { scheme := "http", username := "", password := none,
    host := some "no.url.provided.local", port := none,
    path := "/", query := none, fragment := none }

/-- Embedding of `From<http::Response<T>> for Response`
(`src/async_impl/response.rs` lines 255-274): the body is wrapped by
`Decoder::detect` with decompression checks off, and the URL comes from
the `ResponseUrl` extension when present, else the fallback URL. -/
def Response.from_http (r : HttpResponse) : Response :=
  let det := Decoder.detect r.headers false false
  let url :=
    match r.response_url with
    | some u => u
    | none => no_url_provided
  { status := r.status, headers := det.2, url := url,
    body := det.1, version := r.version }

/-- Redirect actions (`redirect::Action`). -/
inductive Action
  | Follow
  | Stop
  | LoopDetected
  | TooManyRedirects
deriving DecidableEq, Repr

/-- Modelled from the spec: `src/redirect.rs` is not among the provided
sources. A redirect policy is `none` (stop at the first redirect),
`limited max` (hop ceiling plus loop detection over the visited history),
or `custom` (delegating entirely to a predicate over the candidate URL and
the visited history). -/
inductive RedirectPolicy
  | none
  | limited (maxHops : Nat)
  | custom (f : Url → List Url → Action)

/-- Modelled from the spec: the decision function of the redirect policy
(`RedirectPolicy::check` / `check_redirect` in the missing
`src/redirect.rs`). Per the spec, `none` yields `Stop` on any redirect;
`limited max` yields `LoopDetected` when the candidate equals a URL
already in the history (the spec's tie-break rule puts loop detection
before the hop ceiling), `TooManyRedirects` when the history length
exceeds `max`, and `Follow` otherwise; `custom` delegates. -/
def RedirectPolicy.decide_action (p : RedirectPolicy) (next : Url)
    (previous : List Url) : Action :=
  match p with
  | RedirectPolicy.none => Action.Stop
  | RedirectPolicy.limited maxHops =>
    if next ∈ previous then Action.LoopDetected
    else if previous.length > maxHops then Action.TooManyRedirects
    else Action.Follow
  | RedirectPolicy.custom f => f next previous

/-- Modelled from the spec: `remove_sensitive_headers` lives in the
missing `src/redirect.rs`. Credential-bearing headers (authorization,
cookie, proxy-authorization) are stripped whenever the host or
scheme/port changes between the last visited URL and the next URL. -/
def remove_sensitive_headers (headers : HeaderMap) (next : Url)
    (previous : List Url) : HeaderMap :=
  match previous.getLast? with
  | some prev =>
    if prev.host != next.host || prev.scheme != next.scheme
        || prev.port != next.port then
      ((headers.removeAll AUTHORIZATION).removeAll COOKIE).removeAll
        PROXY_AUTHORIZATION
    else
      headers
  | none => headers

/-- The hyper-level response the engine inspects per attempt: status and
headers (the body stream is untouched by redirect handling). -/
structure HyperResponse where
  status : StatusCode
  headers : HeaderMap
deriving DecidableEq, Repr

/-- The client configuration read by the async engine (`ClientRef`), with
the abstract URL-resolution function standing in for
`Url::join` composed with the UTF-8 check on the raw header value
(resolution may fail, yielding `none`). -/
structure ClientCfg where
  gzip : Bool
  referer : Bool
  redirect_policy : RedirectPolicy
  resolve : Url → String → Option Url

/-- The per-attempt mutable state of the async engine
(`PendingRequest` in `src/async_impl/client.rs` lines 535-546). The body
is `none` for no body, `some none` for a non-replayable streamed body and
`some (some bytes)` for a replayable buffered body, exactly as the
`Option<Option<Bytes>>` field of the source. -/
structure PendingRequest where
  method : Method
  url : Url
  headers : HeaderMap
  body : Option (Option Bytes)
  urls : List Url
deriving Repr

/-- Result of processing one transport response: issue a next attempt with
the updated state, return a terminal response (with the final URL), or
fail with an error. -/
inductive StepResult (σ : Type)
  | next (st : σ)
  | terminal (res : HyperResponse) (finalUrl : Url)
  | failure (e : ErrorKind)
deriving Repr

/-- Embedding of the status inspection of `PendingRequest::poll`
(`src/async_impl/client.rs` lines 578-601): for 301/302/303 the body is
cleared, the four entity headers are stripped and the method is
downgraded to GET unless it is GET or HEAD; for 307/308 the redirect
proceeds only when the body is absent or replayable; anything else is no
redirect. Returns the mutated state and the `should_redirect` flag. -/
def redirect_prep (st : PendingRequest) (status : StatusCode) :
    PendingRequest × Bool :=
  if status == MOVED_PERMANENTLY || status == FOUND || status == SEE_OTHER then
    let st := { st with
      body := none,
      headers :=
        (((st.headers.removeAll TRANSFER_ENCODING).removeAll
            CONTENT_ENCODING).removeAll CONTENT_TYPE).removeAll
          CONTENT_LENGTH }
    let st :=
      match st.method with
      | Method.GET => st
      | Method.HEAD => st
      | _ => { st with method := Method.GET }
    (st, true)
  else if status == TEMPORARY_REDIRECT || status == PERMANENT_REDIRECT then
    match st.body with
    | some (some _) => (st, true)
    | none => (st, true)
    | some none => (st, false)
  else
    (st, false)

/-- The header collection after the referer step of the engines: when
referer propagation is enabled and `make_referer` yields a value, it is
inserted under `Referer`; otherwise the collection is unchanged. -/
def referer_headers (refererEnabled : Bool) (headers : HeaderMap)
    (loc current : Url) : HeaderMap :=
  if refererEnabled then
    match make_referer loc current with
    | some r => headers.insert REFERER r.render
    | none => headers
  else
    headers

/-- Embedding of the redirect-handling tail of `PendingRequest::poll`
(`src/async_impl/client.rs` lines 602-663), applied to the state already
mutated by `redirect_prep`: resolve the Location header (missing or
unresolvable degrades to the terminal response), synthesize the referer,
append the current URL to the history, consult the policy and act. -/
def redirect_dispatch (cfg : ClientCfg) (st : PendingRequest)
    (res : HyperResponse) : StepResult PendingRequest :=
  let loc :=
    match res.headers.get LOCATION with
    | some v => cfg.resolve st.url v
    | none => none
  match loc with
  | some loc =>
    let headers := referer_headers cfg.referer st.headers loc st.url
    let urls := st.urls ++ [st.url]
    match cfg.redirect_policy.decide_action loc urls with
    | Action.Follow =>
      let url := loc
      let headers := remove_sensitive_headers headers url urls
      StepResult.next
        { method := st.method, url := url, headers := headers,
          body := st.body, urls := urls }
    | Action.Stop => StepResult.terminal res st.url
    | Action.LoopDetected =>
      StepResult.failure (ErrorKind.loopDetected st.url)
    | Action.TooManyRedirects =>
      StepResult.failure (ErrorKind.tooManyRedirects st.url)
  | none => StepResult.terminal res st.url

/-- One whole iteration of the `loop` of `PendingRequest::poll`
(`src/async_impl/client.rs` lines 572-667) after the in-flight response
arrived. -/
def PendingRequest.poll_step (cfg : ClientCfg) (st : PendingRequest)
    (res : HyperResponse) : StepResult PendingRequest :=
  let p := redirect_prep st res.status
  if p.2 then
    redirect_dispatch cfg p.1 res
  else
    StepResult.terminal res p.1.url

/-- The bytes put on the wire for an attempt issued from a state
(`src/async_impl/client.rs` lines 638-641): the replayable buffer when
present, otherwise an empty body. -/
def attempt_body (st : PendingRequest) : Bytes :=
  match st.body with
  | some (some b) => b
  | _ => []

/-- The async engine loop: the transport delivers response number `k` to
attempt number `k`. Fuel-indexed so non-termination is observable as
`none`. -/
def engine_run (cfg : ClientCfg) (transport : Nat → HyperResponse) :
    Nat → Nat → PendingRequest →
    Option (Except ErrorKind (HyperResponse × Url))
  | 0, _, _ => none
  | fuel + 1, attempt, st =>
    match PendingRequest.poll_step cfg st (transport attempt) with
    | StepResult.next st2 => engine_run cfg transport fuel (attempt + 1) st2
    | StepResult.terminal res url => some (Except.ok (res, url))
    | StepResult.failure e => some (Except.error e)

/-- The blocking client's request body (`src/client.rs` uses
`::body::Body`): either an owned, replayable byte buffer or a one-shot
streamed reader. -/
inductive BlockingBody
  | reusable (bytes : Bytes)
  | streamed
deriving DecidableEq, Repr

/-- Modelled from the spec: `body::can_reset` lives in the missing
`src/body.rs`. A replayable (owned-buffer) body can be reset and resent;
a one-shot streamed body cannot. -/
def can_reset : BlockingBody → Bool
  | BlockingBody.reusable _ => true
  | BlockingBody.streamed => false

/-- The client configuration read by the blocking engine (`ClientRef` in
`src/client.rs`), with the same abstract URL resolution. -/
structure BlockingCfg where
  auto_ungzip : Bool
  auto_referer : Bool
  redirect_policy : RedirectPolicy
  resolve : Url → String → Option Url

/-- The loop state of the blocking `RequestBuilder::send`
(`src/client.rs` lines 397-406): current method, URL, headers, optional
body and visited history. -/
structure BlockingState where
  method : Method
  url : Url
  headers : HeaderMap
  body : Option BlockingBody
  urls : List Url
deriving Repr

/-- Embedding of the status inspection of the blocking send loop
(`src/client.rs` lines 423-445): for 301/302/303 the body is cleared and
the method downgraded to GET unless GET/HEAD (note: no header stripping
in this engine); for 307/308 the redirect proceeds only when the body is
absent or `can_reset` holds. -/
def blocking_redirect_prep (st : BlockingState) (status : StatusCode) :
    BlockingState × Bool :=
  if status == MOVED_PERMANENTLY || status == FOUND || status == SEE_OTHER then
    let st := { st with body := none }
    let st :=
      match st.method with
      | Method.GET => st
      | Method.HEAD => st
      | _ => { st with method := Method.GET }
    (st, true)
  else if status == TEMPORARY_REDIRECT || status == PERMANENT_REDIRECT then
    match st.body with
    | some b => (st, can_reset b)
    | none => (st, true)
  else
    (st, false)

/-- Embedding of one iteration of the blocking send loop
(`src/client.rs` lines 408-493): a missing Location header or a failed
resolution returns the current response; otherwise referer synthesis,
history push, policy consultation and the four actions, with sensitive
headers stripped on Follow. -/
def RequestBuilder.send_step (cfg : BlockingCfg) (st : BlockingState)
    (res : HyperResponse) : StepResult BlockingState :=
  let p := blocking_redirect_prep st res.status
  let st := p.1
  if p.2 then
    match res.headers.get LOCATION with
    | some v =>
      match cfg.resolve st.url v with
      | some loc =>
        let headers := referer_headers cfg.auto_referer st.headers loc st.url
        let urls := st.urls ++ [st.url]
        match cfg.redirect_policy.decide_action loc urls with
        | Action.Follow =>
          let url := loc
          let headers := remove_sensitive_headers headers url urls
          StepResult.next
            { method := st.method, url := url, headers := headers,
              body := st.body, urls := urls }
        | Action.Stop => StepResult.terminal res st.url
        | Action.LoopDetected =>
          StepResult.failure (ErrorKind.loopDetected st.url)
        | Action.TooManyRedirects =>
          StepResult.failure (ErrorKind.tooManyRedirects st.url)
      | none => StepResult.terminal res st.url
    | none => StepResult.terminal res st.url
  else
    StepResult.terminal res st.url

/-- The blocking engine loop, fuel-indexed like the async one. -/
def send_run (cfg : BlockingCfg) (transport : Nat → HyperResponse) :
    Nat → Nat → BlockingState →
    Option (Except ErrorKind (HyperResponse × Url))
  | 0, _, _ => none
  | fuel + 1, attempt, st =>
    match RequestBuilder.send_step cfg st (transport attempt) with
    | StepResult.next st2 => send_run cfg transport fuel (attempt + 1) st2
    | StepResult.terminal res url => some (Except.ok (res, url))
    | StepResult.failure e => some (Except.error e)

/-- Merging of default headers with request headers in
`Client::execute_request` (`src/async_impl/client.rs` lines 451-454):
request headers take precedence on key collision. -/
def merge_headers (defaults user : HeaderMap) : HeaderMap :=
  user.foldl (fun acc p => acc.insert p.1 p.2) defaults

/-- Embedding of the header phase of `Client::execute_request`
(`src/async_impl/client.rs` lines 451-460): merge defaults with user
headers, then insert `Accept-Encoding: gzip` when auto-gzip is on and the
merged collection has neither an Accept-Encoding nor a Range header. -/
def Client.execute_request_headers (gzip : Bool) (defaults user : HeaderMap) :
    HeaderMap :=
  let headers := merge_headers defaults user
  if gzip && !headers.containsKey ACCEPT_ENCODING
      && !headers.containsKey RANGE then
    headers.insert ACCEPT_ENCODING "gzip"
  else
    headers

/-- Embedding of the header phase of the blocking `RequestBuilder::send`
(`src/client.rs` lines 384-396): default User-Agent and Accept when
missing, then the same conditional `Accept-Encoding: gzip` insertion. -/
def RequestBuilder.send_headers (auto_ungzip : Bool) (user_agent : String)
    (headers : HeaderMap) : HeaderMap :=
  let headers :=
    if headers.containsKey USER_AGENT then headers
    else headers.insert USER_AGENT user_agent
  let headers :=
    if headers.containsKey ACCEPT then headers
    else headers.insert ACCEPT "*/*"
  if auto_ungzip && !headers.containsKey ACCEPT_ENCODING
      && !headers.containsKey RANGE then
    headers.insert ACCEPT_ENCODING "gzip"
  else
    headers

theorem getAll_append (l1 l2 : HeaderMap) (m : String) :
    HeaderMap.getAll (l1 ++ l2) m = l1.getAll m ++ l2.getAll m := by
  simp [HeaderMap.getAll, List.filter_append]

theorem getAll_removeAll_of_ne (h : HeaderMap) {m n : String} (hmn : m ≠ n) :
    (h.removeAll n).getAll m = h.getAll m := by
  unfold HeaderMap.getAll HeaderMap.removeAll
  rw [List.filter_filter]
  congr 1
  apply List.filter_congr
  intro a _
  cases ha : (a.1 == m) with
  | false => simp [ha]
  | true =>
    have : a.1 = m := by simpa using ha
    simp [ha, bne, this, hmn]

theorem getAll_insert_of_ne (h : HeaderMap) {m n : String} (v : String)
    (hmn : m ≠ n) : (h.insert n v).getAll m = h.getAll m := by
  unfold HeaderMap.insert
  rw [getAll_append, getAll_removeAll_of_ne h hmn]
  have hne : (n == m) = false := by
    simp [Ne.symm hmn]
  have : HeaderMap.getAll [(n, v)] m = [] := by
    simp [HeaderMap.getAll, List.filter, hne]
  simp [this]

theorem containsKey_eq_getAll (h : HeaderMap) (m : String) :
    h.containsKey m = !(h.getAll m).isEmpty := by
  induction h with
  | nil => rfl
  | cons p t ih =>
    cases hp : (p.1 == m) with
    | false => simpa [HeaderMap.containsKey, HeaderMap.getAll, List.filter,
        hp, List.any_cons] using ih
    | true => simp [HeaderMap.containsKey, HeaderMap.getAll, List.filter,
        hp, List.any_cons]

theorem containsKey_removeAll_self (h : HeaderMap) (n : String) :
    (h.removeAll n).containsKey n = false := by
  rw [containsKey_eq_getAll]
  suffices hs : (h.removeAll n).getAll n = [] by simp [hs]
  unfold HeaderMap.getAll HeaderMap.removeAll
  rw [List.filter_filter]
  suffices hs : List.filter (fun a => a.1 == n && (a.1 != n)) h = [] by
    simp [hs]
  apply List.filter_eq_nil_iff.mpr
  intro a _
  cases ha : (a.1 == n) with
  | false => simp [ha]
  | true => simp [ha, bne]

theorem containsKey_removeAll_of_ne (h : HeaderMap) {m n : String}
    (hmn : m ≠ n) : (h.removeAll n).containsKey m = h.containsKey m := by
  rw [containsKey_eq_getAll, containsKey_eq_getAll,
    getAll_removeAll_of_ne h hmn]

theorem containsKey_insert_of_ne (h : HeaderMap) {m n : String} (v : String)
    (hmn : m ≠ n) : (h.insert n v).containsKey m = h.containsKey m := by
  rw [containsKey_eq_getAll, containsKey_eq_getAll,
    getAll_insert_of_ne h v hmn]

theorem getAll_remove_sensitive (h : HeaderMap) (next : Url)
    (previous : List Url) {m : String} (h1 : m ≠ AUTHORIZATION)
    (h2 : m ≠ COOKIE) (h3 : m ≠ PROXY_AUTHORIZATION) :
    (remove_sensitive_headers h next previous).getAll m = h.getAll m := by
  unfold remove_sensitive_headers
  cases previous.getLast? with
  | none => rfl
  | some prev =>
    by_cases hc : (prev.host != next.host || prev.scheme != next.scheme
        || prev.port != next.port) = true
    · simp only [hc, if_true]
      rw [getAll_removeAll_of_ne _ h3, getAll_removeAll_of_ne _ h2,
        getAll_removeAll_of_ne _ h1]
    · simp only [Bool.not_eq_true] at hc
      simp [hc]

theorem getAll_referer_headers (re : Bool) (h : HeaderMap) (loc cur : Url)
    {m : String} (hm : m ≠ REFERER) :
    (referer_headers re h loc cur).getAll m = h.getAll m := by
  unfold referer_headers
  cases re with
  | false => rfl
  | true =>
    cases make_referer loc cur with
    | none => rfl
    | some r => exact getAll_insert_of_ne h _ hm

theorem containsKey_remove_sensitive (h : HeaderMap) (next : Url)
    (previous : List Url) {m : String} (h1 : m ≠ AUTHORIZATION)
    (h2 : m ≠ COOKIE) (h3 : m ≠ PROXY_AUTHORIZATION) :
    (remove_sensitive_headers h next previous).containsKey m
      = h.containsKey m := by
  rw [containsKey_eq_getAll, containsKey_eq_getAll,
    getAll_remove_sensitive h next previous h1 h2 h3]

theorem containsKey_referer_headers (re : Bool) (h : HeaderMap)
    (loc cur : Url) {m : String} (hm : m ≠ REFERER) :
    (referer_headers re h loc cur).containsKey m = h.containsKey m := by
  rw [containsKey_eq_getAll, containsKey_eq_getAll,
    getAll_referer_headers re h loc cur hm]

theorem redirect_prep_301 (st : PendingRequest) {s : StatusCode}
    (hs : s = 301 ∨ s = 302 ∨ s = 303) :
    redirect_prep st s =
      ({ method := if st.method = Method.GET ∨ st.method = Method.HEAD
            then st.method else Method.GET,
         url := st.url,
         headers := (((st.headers.removeAll TRANSFER_ENCODING).removeAll
             CONTENT_ENCODING).removeAll CONTENT_TYPE).removeAll
           CONTENT_LENGTH,
         body := none, urls := st.urls }, true) := by
  obtain ⟨m, u, hd, b, us⟩ := st
  rcases hs with h | h | h <;> subst h <;> cases m <;>
    simp [redirect_prep, MOVED_PERMANENTLY, FOUND, SEE_OTHER]

theorem redirect_prep_307 (st : PendingRequest) {s : StatusCode}
    (hs : s = 307 ∨ s = 308) :
    redirect_prep st s =
      (st, match st.body with
           | some none => false
           | _ => true) := by
  obtain ⟨m, u, hd, b, us⟩ := st
  rcases hs with h | h <;> subst h <;>
    (cases b with
     | none =>
       simp [redirect_prep, MOVED_PERMANENTLY, FOUND, SEE_OTHER,
         TEMPORARY_REDIRECT, PERMANENT_REDIRECT]
     | some o =>
       cases o <;>
         simp [redirect_prep, MOVED_PERMANENTLY, FOUND, SEE_OTHER,
           TEMPORARY_REDIRECT, PERMANENT_REDIRECT])

theorem redirect_prep_preserves (st : PendingRequest) (s : StatusCode) :
    (redirect_prep st s).1.url = st.url
      ∧ (redirect_prep st s).1.urls = st.urls := by
  obtain ⟨m, u, hd, b, us⟩ := st
  unfold redirect_prep
  split
  · cases m <;> simp
  · split
    · cases b with
      | none => simp
      | some o => cases o <;> simp
    · simp

theorem redirect_dispatch_next {cfg : ClientCfg} {st st2 : PendingRequest}
    {res : HyperResponse}
    (h : redirect_dispatch cfg st res = StepResult.next st2) :
    ∃ v loc, res.headers.get LOCATION = some v
      ∧ cfg.resolve st.url v = some loc
      ∧ cfg.redirect_policy.decide_action loc (st.urls ++ [st.url])
          = Action.Follow
      ∧ st2 = { method := st.method, url := loc,
                headers := remove_sensitive_headers
                  (referer_headers cfg.referer st.headers loc st.url)
                  loc (st.urls ++ [st.url]),
                body := st.body, urls := st.urls ++ [st.url] } := by
  simp only [redirect_dispatch] at h
  cases hg : res.headers.get LOCATION with
  | none => simp only [hg] at h; simp at h
  | some v =>
    simp only [hg] at h
    cases hr : cfg.resolve st.url v with
    | none => simp only [hr] at h; simp at h
    | some loc =>
      simp only [hr] at h
      cases ha : cfg.redirect_policy.decide_action loc (st.urls ++ [st.url]) with
      | Follow =>
        simp only [ha, StepResult.next.injEq] at h
        exact ⟨v, loc, rfl, hr, ha, h.symm⟩
      | Stop => simp only [ha] at h; simp at h
      | LoopDetected => simp only [ha] at h; simp at h
      | TooManyRedirects => simp only [ha] at h; simp at h

theorem redirect_dispatch_loop {cfg : ClientCfg} {st : PendingRequest}
    {res : HyperResponse} {v : String} {loc : Url}
    (hg : res.headers.get LOCATION = some v)
    (hr : cfg.resolve st.url v = some loc)
    (ha : cfg.redirect_policy.decide_action loc (st.urls ++ [st.url])
        = Action.LoopDetected) :
    redirect_dispatch cfg st res
      = StepResult.failure (ErrorKind.loopDetected st.url) := by
  simp [redirect_dispatch, hg, hr, ha]

theorem redirect_dispatch_toomany {cfg : ClientCfg} {st : PendingRequest}
    {res : HyperResponse} {v : String} {loc : Url}
    (hg : res.headers.get LOCATION = some v)
    (hr : cfg.resolve st.url v = some loc)
    (ha : cfg.redirect_policy.decide_action loc (st.urls ++ [st.url])
        = Action.TooManyRedirects) :
    redirect_dispatch cfg st res
      = StepResult.failure (ErrorKind.tooManyRedirects st.url) := by
  simp [redirect_dispatch, hg, hr, ha]

theorem redirect_dispatch_noloc {cfg : ClientCfg} {st : PendingRequest}
    {res : HyperResponse}
    (hg : res.headers.get LOCATION = none) :
    redirect_dispatch cfg st res = StepResult.terminal res st.url := by
  simp [redirect_dispatch, hg]

theorem redirect_dispatch_badloc {cfg : ClientCfg} {st : PendingRequest}
    {res : HyperResponse} {v : String}
    (hg : res.headers.get LOCATION = some v)
    (hr : cfg.resolve st.url v = none) :
    redirect_dispatch cfg st res = StepResult.terminal res st.url := by
  simp [redirect_dispatch, hg, hr]

theorem blocking_prep_301 (st : BlockingState) {s : StatusCode}
    (hs : s = 301 ∨ s = 302 ∨ s = 303) :
    blocking_redirect_prep st s =
      ({ method := if st.method = Method.GET ∨ st.method = Method.HEAD
            then st.method else Method.GET,
         url := st.url, headers := st.headers, body := none,
         urls := st.urls }, true) := by
  obtain ⟨m, u, hd, b, us⟩ := st
  rcases hs with h | h | h <;> subst h <;> cases m <;>
    simp [blocking_redirect_prep, MOVED_PERMANENTLY, FOUND, SEE_OTHER]

theorem blocking_prep_307 (st : BlockingState) {s : StatusCode}
    (hs : s = 307 ∨ s = 308) :
    blocking_redirect_prep st s =
      (st, match st.body with
           | some b => can_reset b
           | none => true) := by
  obtain ⟨m, u, hd, b, us⟩ := st
  rcases hs with h | h <;> subst h <;>
    (cases b with
     | none =>
       simp [blocking_redirect_prep, MOVED_PERMANENTLY, FOUND, SEE_OTHER,
         TEMPORARY_REDIRECT, PERMANENT_REDIRECT]
     | some o =>
       simp [blocking_redirect_prep, MOVED_PERMANENTLY, FOUND, SEE_OTHER,
         TEMPORARY_REDIRECT, PERMANENT_REDIRECT])

theorem blocking_prep_preserves (st : BlockingState) (s : StatusCode) :
    (blocking_redirect_prep st s).1.url = st.url
      ∧ (blocking_redirect_prep st s).1.urls = st.urls
      ∧ (blocking_redirect_prep st s).1.headers = st.headers := by
  obtain ⟨m, u, hd, b, us⟩ := st
  unfold blocking_redirect_prep
  split
  · cases m <;> simp
  · split
    · cases b with
      | none => simp
      | some o => simp
    · simp

theorem send_step_next {cfg : BlockingCfg} {st st2 st1 : BlockingState}
    {res : HyperResponse}
    (hp : blocking_redirect_prep st res.status = (st1, true))
    (h : RequestBuilder.send_step cfg st res = StepResult.next st2) :
    ∃ v loc, res.headers.get LOCATION = some v
      ∧ cfg.resolve st1.url v = some loc
      ∧ cfg.redirect_policy.decide_action loc (st1.urls ++ [st1.url])
          = Action.Follow
      ∧ st2 = { method := st1.method, url := loc,
                headers := remove_sensitive_headers
                  (referer_headers cfg.auto_referer st1.headers loc st1.url)
                  loc (st1.urls ++ [st1.url]),
                body := st1.body, urls := st1.urls ++ [st1.url] } := by
  simp only [RequestBuilder.send_step, hp] at h
  cases hg : res.headers.get LOCATION with
  | none => simp only [hg] at h; simp at h
  | some v =>
    simp only [hg] at h
    cases hr : cfg.resolve st1.url v with
    | none => simp only [hr] at h; simp at h
    | some loc =>
      simp only [hr] at h
      cases ha : cfg.redirect_policy.decide_action loc
          (st1.urls ++ [st1.url]) with
      | Follow =>
        simp only [ha] at h
        simp at h
        refine ⟨v, loc, rfl, hr, ha, ?_⟩
        first
        | exact h
        | exact h.symm
      | Stop => simp only [ha] at h; simp at h
      | LoopDetected => simp only [ha] at h; simp at h
      | TooManyRedirects => simp only [ha] at h; simp at h

theorem send_step_noloc {cfg : BlockingCfg} {st : BlockingState}
    {res : HyperResponse} (hg : res.headers.get LOCATION = none) :
    RequestBuilder.send_step cfg st res = StepResult.terminal res st.url := by
  have hu := (blocking_prep_preserves st res.status).1
  simp only [RequestBuilder.send_step]
  split
  · simp [hg, hu]
  · rw [hu]

theorem send_step_badloc {cfg : BlockingCfg} {st : BlockingState}
    {res : HyperResponse} {v : String}
    (hg : res.headers.get LOCATION = some v)
    (hr : cfg.resolve (blocking_redirect_prep st res.status).1.url v
        = none) :
    RequestBuilder.send_step cfg st res = StepResult.terminal res st.url := by
  have hu := (blocking_prep_preserves st res.status).1
  rw [hu] at hr
  simp only [RequestBuilder.send_step]
  split
  · simp [hg, hr, hu]
  · rw [hu]

theorem send_step_loop {cfg : BlockingCfg} {st st1 : BlockingState}
    {res : HyperResponse} {v : String} {loc : Url}
    (hp : blocking_redirect_prep st res.status = (st1, true))
    (hg : res.headers.get LOCATION = some v)
    (hr : cfg.resolve st1.url v = some loc)
    (ha : cfg.redirect_policy.decide_action loc (st1.urls ++ [st1.url])
        = Action.LoopDetected) :
    RequestBuilder.send_step cfg st res
      = StepResult.failure (ErrorKind.loopDetected st1.url) := by
  simp [RequestBuilder.send_step, hp, hg, hr, ha]

theorem send_step_toomany {cfg : BlockingCfg} {st st1 : BlockingState}
    {res : HyperResponse} {v : String} {loc : Url}
    (hp : blocking_redirect_prep st res.status = (st1, true))
    (hg : res.headers.get LOCATION = some v)
    (hr : cfg.resolve st1.url v = some loc)
    (ha : cfg.redirect_policy.decide_action loc (st1.urls ++ [st1.url])
        = Action.TooManyRedirects) :
    RequestBuilder.send_step cfg st res
      = StepResult.failure (ErrorKind.tooManyRedirects st1.url) := by
  simp [RequestBuilder.send_step, hp, hg, hr, ha]

/-- Concrete URL used by witnesses and counterexamples. -/
def urlA : Url :=
  { scheme := "http", username := "", password := none,
    host := some "a.example", port := none, path := "/", query := none,
    fragment := none }

/-- Concrete URL used by witnesses and counterexamples. -/
def urlB : Url :=
  { scheme := "http", username := "", password := none,
    host := some "b.example", port := none, path := "/", query := none,
    fragment := none }

/-- Concrete https URL with credentials and a fragment, for the referer
witness. -/
def urlS : Url :=
  { scheme := "https", username := "user", password := some "secret",
    host := some "s.example", port := some 8443, path := "/p",
    query := some "q=1", fragment := some "frag" }

/-- Concrete resolver for witnesses: "/a" resolves to `urlA`, "/b" to
`urlB`, anything else fails. -/
def resolveAB : Url → String → Option Url := fun _ s =>
  if s == "/a" then some urlA
  else if s == "/b" then some urlB
  else none

/-- Concrete async client configuration for witnesses. -/
def cfgAsync : ClientCfg :=
  { gzip := true, referer := false,
    redirect_policy := RedirectPolicy.limited 10, resolve := resolveAB }

/-- Concrete blocking client configuration for witnesses. -/
def cfgBlocking : BlockingCfg :=
  { auto_ungzip := true, auto_referer := false,
    redirect_policy := RedirectPolicy.limited 10, resolve := resolveAB }

/-- C4: `make_referer` yields no value whenever the next URL is http and
the previous URL is https; any value it does yield is the previous URL
with the username emptied, the password removed and the fragment removed.
Hence a Referer is never synthesized when redirecting from https to
http. The hypothesis is the `url`-crate invariant that credentials imply
a host. -/
theorem make_referer_spec (next previous : Url)
    (hwf : previous.wf = true) :
    (next.scheme = "http" → previous.scheme = "https" →
      make_referer next previous = none)
    ∧ (∀ v, make_referer next previous = some v →
        v.username = "" ∧ v.password = none ∧ v.fragment = none
        ∧ v.scheme = previous.scheme ∧ v.host = previous.host
        ∧ v.port = previous.port ∧ v.path = previous.path
        ∧ v.query = previous.query) := by
  constructor
  · intro h1 h2
    simp [make_referer, h1, h2]
  · intro v hv
    unfold make_referer at hv
    split at hv
    · simp at hv
    · rw [Option.some.injEq] at hv
      subst hv
      cases hh : previous.host with
      | some hst =>
        simp [Url.set_username, Url.set_password, Url.set_fragment, hh]
      | none =>
        have hw := hwf
        simp only [Url.wf, hh, Option.isSome_none, Bool.false_or,
          Bool.and_eq_true, beq_iff_eq, Option.isNone_iff_eq_none] at hw
        simp [Url.set_username, Url.set_password, Url.set_fragment, hh,
          hw.1, hw.2]

/-- Witness for C4: at the concrete https URL with credentials, the
invariant holds and no referer is produced toward an http target. -/
theorem make_referer_spec_witness :
    urlS.wf = true ∧ make_referer urlA urlS = none :=
  ⟨by decide, (make_referer_spec urlA urlS (by decide)).1 rfl rfl⟩

/-- Concrete response with a 404 status. -/
def resp404 : Response :=
  { status := 404, headers := [], url := urlA, body := Decoder.PlainText,
    version := 11 }

/-- Concrete response with a 200 status. -/
def resp200 : Response :=
  { status := 200, headers := [(CONTENT_TYPE, "text/plain")], url := urlB,
    body := Decoder.PlainText, version := 11 }

/-- C9: `error_for_status` (and `error_for_status_ref`) errs exactly when
the status is in 400..=599, the error carrying the response's URL and
status; any other status returns the response itself unchanged. -/
theorem error_for_status_spec (r : Response) :
    ((400 ≤ r.status ∧ r.status ≤ 599) →
      r.error_for_status = Except.error (ErrorKind.statusCode r.url r.status)
      ∧ r.error_for_status_ref
          = Except.error (ErrorKind.statusCode r.url r.status))
    ∧ (¬(400 ≤ r.status ∧ r.status ≤ 599) →
      r.error_for_status = Except.ok r
      ∧ r.error_for_status_ref = Except.ok r) := by
  obtain ⟨s, hs⟩ : ∃ n : Nat, r.status = n := ⟨r.status, rfl⟩
  have hcond : (r.status.is_client_error || r.status.is_server_error) = true
      ↔ (400 ≤ r.status ∧ r.status ≤ 599) := by
    rw [hs]
    constructor
    · intro hc
      simp only [StatusCode.is_client_error, StatusCode.is_server_error,
        Bool.or_eq_true, Bool.and_eq_true, decide_eq_true_eq] at hc
      have hc2 : (400 ≤ s ∧ s < 500) ∨ (500 ≤ s ∧ s < 600) := hc
      show 400 ≤ s ∧ s ≤ 599
      omega
    · intro hp
      have hp2 : 400 ≤ s ∧ s ≤ 599 := hp
      simp only [StatusCode.is_client_error, StatusCode.is_server_error,
        Bool.or_eq_true, Bool.and_eq_true, decide_eq_true_eq]
      show (400 ≤ s ∧ s < 500) ∨ (500 ≤ s ∧ s < 600)
      omega
  constructor
  · intro h
    rw [Response.error_for_status, Response.error_for_status_ref,
      if_pos (hcond.mpr h)]
    exact ⟨rfl, rfl⟩
  · intro h
    rw [Response.error_for_status, Response.error_for_status_ref,
      if_neg (fun hc => h (hcond.mp hc))]
    exact ⟨rfl, rfl⟩

/-- Witness for C9: a 404 response errs with its URL and status; a 200
response is returned unchanged. -/
theorem error_for_status_spec_witness :
    resp404.error_for_status = Except.error (ErrorKind.statusCode urlA 404)
    ∧ resp200.error_for_status = Except.ok resp200 :=
  ⟨((error_for_status_spec resp404).1 (by decide)).1,
   ((error_for_status_spec resp200).2 (by decide)).1⟩

/-- Concrete `http::Response` carrying a `ResponseUrl` extension. -/
def httpRespWithUrl : HttpResponse :=
  { status := 200, headers := [], version := 11, response_url := some urlB }

/-- Concrete `http::Response` without a `ResponseUrl` extension. -/
def httpRespNoUrl : HttpResponse :=
  { status := 200, headers := [], version := 11, response_url := none }

/-- C10: converting an `http::Response` uses the URL in the `ResponseUrl`
extension when present, and otherwise the fixed fallback URL
`http://no.url.provided.local`, never an error or an empty value. -/
theorem from_http_url_spec (r : HttpResponse) :
    (∀ u, r.response_url = some u → (Response.from_http r).url = u)
    ∧ (r.response_url = none →
        (Response.from_http r).url = no_url_provided) := by
  constructor
  · intro u hu
    simp [Response.from_http, hu]
  · intro hn
    simp [Response.from_http, hn]

/-- Witness for C10 at the two concrete responses. -/
theorem from_http_url_spec_witness :
    (Response.from_http httpRespWithUrl).url = urlB
    ∧ (Response.from_http httpRespNoUrl).url = no_url_provided :=
  ⟨(from_http_url_spec httpRespWithUrl).1 urlB rfl,
   (from_http_url_spec httpRespNoUrl).2 rfl⟩

theorem detect_gzip_cl_zero (h : HeaderMap)
    (hcl : h.get CONTENT_LENGTH = some "0") :
    Decoder.detect_gzip h = (false, h) := by
  cases hb : ((h.getAll CONTENT_ENCODING).any (fun enc => enc == "gzip")
      || (h.getAll TRANSFER_ENCODING).any (fun enc => enc == "gzip")) with
  | false => simp [Decoder.detect_gzip, hcl, hb]
  | true => simp [Decoder.detect_gzip, hcl, hb]

theorem detect_brotli_cl_zero (h : HeaderMap)
    (hcl : h.get CONTENT_LENGTH = some "0") :
    Decoder.detect_brotli h = (false, h) := by
  cases hb : ((h.getAll CONTENT_ENCODING).any (fun enc => enc == "br")
      || (h.getAll TRANSFER_ENCODING).any (fun enc => enc == "br")) with
  | false => simp [Decoder.detect_brotli, hcl, hb]
  | true => simp [Decoder.detect_brotli, hcl, hb]

/-- C6: with a declared supported content encoding and a Content-Length
of "0", `Decoder::detect` never constructs a decompressor: it
short-circuits to the pass-through `PlainText` decoder (and leaves the
headers untouched). -/
theorem detect_cl_zero_plaintext (h : HeaderMap) (cg cb : Bool)
    (_henc : (h.getAll CONTENT_ENCODING).contains "gzip" = true
        ∨ (h.getAll CONTENT_ENCODING).contains "br" = true)
    (hcl : h.get CONTENT_LENGTH = some "0") :
    Decoder.detect h cg cb = (Decoder.PlainText, h) := by
  unfold Decoder.detect
  split
  · rfl
  · simp [detect_gzip_cl_zero h hcl, detect_brotli_cl_zero h hcl]

/-- Witness for C6: a gzip response with Content-Length 0 stays plain. -/
theorem detect_cl_zero_plaintext_witness :
    Decoder.detect [(CONTENT_ENCODING, "gzip"), (CONTENT_LENGTH, "0")]
        true true
      = (Decoder.PlainText,
         [(CONTENT_ENCODING, "gzip"), (CONTENT_LENGTH, "0")]) :=
  detect_cl_zero_plaintext
    [(CONTENT_ENCODING, "gzip"), (CONTENT_LENGTH, "0")] true true
    (Or.inl (by decide)) (by decide)

theorem detect_gzip_cases (h : HeaderMap) :
    Decoder.detect_gzip h
        = (true, (h.removeAll CONTENT_ENCODING).removeAll CONTENT_LENGTH)
    ∨ Decoder.detect_gzip h = (false, h) := by
  by_cases hg1 : (((h.getAll CONTENT_ENCODING).any fun enc => enc == "gzip")
      || (h.getAll TRANSFER_ENCODING).any fun enc => enc == "gzip") = true
  · cases hcl : h.get CONTENT_LENGTH with
    | none => simp [Decoder.detect_gzip, hg1, hcl]
    | some cl =>
      by_cases hz : (cl == "0") = true
      · simp [Decoder.detect_gzip, hg1, hcl, hz]
      · simp [Decoder.detect_gzip, hg1, hcl, hz]
  · simp [Decoder.detect_gzip, hg1]

theorem detect_brotli_cases (h : HeaderMap) :
    Decoder.detect_brotli h
        = (true, (h.removeAll CONTENT_ENCODING).removeAll CONTENT_LENGTH)
    ∨ Decoder.detect_brotli h = (false, h) := by
  by_cases hg1 : (((h.getAll CONTENT_ENCODING).any fun enc => enc == "br")
      || (h.getAll TRANSFER_ENCODING).any fun enc => enc == "br") = true
  · cases hcl : h.get CONTENT_LENGTH with
    | none => simp [Decoder.detect_brotli, hg1, hcl]
    | some cl =>
      by_cases hz : (cl == "0") = true
      · simp [Decoder.detect_brotli, hg1, hcl, hz]
      · simp [Decoder.detect_brotli, hg1, hcl, hz]
  · simp [Decoder.detect_brotli, hg1]

theorem detect_cases (h : HeaderMap) (cg cb : Bool) :
    Decoder.detect h cg cb = (Decoder.PlainText, h)
    ∨ Decoder.detect h cg cb
        = (Decoder.Gzip,
           (h.removeAll CONTENT_ENCODING).removeAll CONTENT_LENGTH)
    ∨ Decoder.detect h cg cb
        = (Decoder.Brotli,
           (h.removeAll CONTENT_ENCODING).removeAll CONTENT_LENGTH) := by
  unfold Decoder.detect
  split
  · left; rfl
  · rcases detect_gzip_cases h with hg | hg
    · simp [hg]
    · rcases detect_brotli_cases h with hb | hb
      · simp [hg, hb]
      · simp [hg, hb]

/-- C7: when detection commits to a decompressor, the header collection
handed on is exactly the input with the Content-Encoding and
Content-Length entries removed (all entries under other names are
untouched); when detection does not commit, the header collection is left
entirely unchanged. -/
theorem detect_header_effect (h : HeaderMap) (cg cb : Bool) :
    ((Decoder.detect h cg cb).1 = Decoder.PlainText →
      (Decoder.detect h cg cb).2 = h)
    ∧ ((Decoder.detect h cg cb).1 ≠ Decoder.PlainText →
      (Decoder.detect h cg cb).2
          = (h.removeAll CONTENT_ENCODING).removeAll CONTENT_LENGTH
      ∧ ∀ n, n ≠ CONTENT_ENCODING → n ≠ CONTENT_LENGTH →
          ((Decoder.detect h cg cb).2).getAll n = h.getAll n) := by
  have hremove : ∀ n, n ≠ CONTENT_ENCODING → n ≠ CONTENT_LENGTH →
      ((h.removeAll CONTENT_ENCODING).removeAll CONTENT_LENGTH).getAll n
        = h.getAll n := by
    intro n h1 h2
    rw [getAll_removeAll_of_ne _ h2, getAll_removeAll_of_ne _ h1]
  rcases detect_cases h cg cb with hd | hd | hd
  · rw [hd]
    exact ⟨fun _ => rfl, fun hcon => absurd rfl hcon⟩
  · rw [hd]
    refine ⟨fun hcon => absurd hcon (by simp), fun _ => ⟨rfl, ?_⟩⟩
    intro n h1 h2
    exact hremove n h1 h2
  · rw [hd]
    refine ⟨fun hcon => absurd hcon (by simp), fun _ => ⟨rfl, ?_⟩⟩
    intro n h1 h2
    exact hremove n h1 h2

/-- Concrete header collection for the C7 witness. -/
def hdrsGz : HeaderMap :=
  [(CONTENT_ENCODING, "gzip"), (CONTENT_LENGTH, "5"), ("x-other", "v")]

/-- Witness for C7: on a gzip response the committed detection removes
exactly Content-Encoding and Content-Length and keeps other entries. -/
theorem detect_header_effect_witness :
    (Decoder.detect hdrsGz true true).2
        = (hdrsGz.removeAll CONTENT_ENCODING).removeAll CONTENT_LENGTH
    ∧ ((Decoder.detect hdrsGz true true).2).getAll "x-other"
        = hdrsGz.getAll "x-other" :=
  ⟨((detect_header_effect hdrsGz true true).2 (by decide)).1,
   ((detect_header_effect hdrsGz true true).2 (by decide)).2 "x-other"
     (by decide) (by decide)⟩

/-- C8: with automatic decompression enabled, `Accept-Encoding: gzip` is
inserted exactly when the merged header collection contains neither an
Accept-Encoding nor a Range header; otherwise the collection is left as
supplied. Stated for the async `execute_request` header phase and for the
blocking `send` header phase (whose collection already carries the
User-Agent and Accept defaults). -/
theorem accept_encoding_insertion
    (defaults user : HeaderMap) (ua : String) (headers : HeaderMap)
    (hua : headers.containsKey USER_AGENT = true)
    (hac : headers.containsKey ACCEPT = true) :
    ((merge_headers defaults user).containsKey ACCEPT_ENCODING = false →
      (merge_headers defaults user).containsKey RANGE = false →
      Client.execute_request_headers true defaults user
        = (merge_headers defaults user).insert ACCEPT_ENCODING "gzip")
    ∧ ((merge_headers defaults user).containsKey ACCEPT_ENCODING = true
        ∨ (merge_headers defaults user).containsKey RANGE = true →
      Client.execute_request_headers true defaults user
        = merge_headers defaults user)
    ∧ (headers.containsKey ACCEPT_ENCODING = false →
      headers.containsKey RANGE = false →
      RequestBuilder.send_headers true ua headers
        = headers.insert ACCEPT_ENCODING "gzip")
    ∧ (headers.containsKey ACCEPT_ENCODING = true
        ∨ headers.containsKey RANGE = true →
      RequestBuilder.send_headers true ua headers = headers) := by
  refine ⟨?_, ?_, ?_, ?_⟩
  · intro h1 h2
    simp [Client.execute_request_headers, h1, h2]
  · intro h
    rcases h with h | h <;> simp [Client.execute_request_headers, h]
  · intro h1 h2
    simp [RequestBuilder.send_headers, hua, hac, h1, h2]
  · intro h
    rcases h with h | h <;> simp [RequestBuilder.send_headers, hua, hac, h]

/-- Concrete default header collection for the C8 witness. -/
def hdrsUA : HeaderMap := [(USER_AGENT, "reqwest/0.9.19"), (ACCEPT, "*/*")]

/-- Witness for C8: with no Accept-Encoding and no Range present, both
engines insert the gzip Accept-Encoding header. -/
theorem accept_encoding_insertion_witness :
    Client.execute_request_headers true hdrsUA []
      = (merge_headers hdrsUA []).insert ACCEPT_ENCODING "gzip"
    ∧ RequestBuilder.send_headers true "reqwest/0.9.19" hdrsUA
      = hdrsUA.insert ACCEPT_ENCODING "gzip" :=
  ⟨(accept_encoding_insertion hdrsUA [] "reqwest/0.9.19" hdrsUA
      (by decide) (by decide)).1 (by decide) (by decide),
   (accept_encoding_insertion hdrsUA [] "reqwest/0.9.19" hdrsUA
      (by decide) (by decide)).2.2.1 (by decide) (by decide)⟩

theorem poll_step_false {cfg : ClientCfg} {st : PendingRequest}
    {res : HyperResponse}
    (hf : (redirect_prep st res.status).2 = false) :
    PendingRequest.poll_step cfg st res = StepResult.terminal res st.url := by
  have hu := (redirect_prep_preserves st res.status).1
  simp only [PendingRequest.poll_step, hf]
  simp [hu]

theorem poll_step_true {cfg : ClientCfg} {st : PendingRequest}
    {res : HyperResponse}
    (ht : (redirect_prep st res.status).2 = true) :
    PendingRequest.poll_step cfg st res
      = redirect_dispatch cfg (redirect_prep st res.status).1 res := by
  simp only [PendingRequest.poll_step, ht]
  simp

theorem send_step_false {cfg : BlockingCfg} {st : BlockingState}
    {res : HyperResponse}
    (hf : (blocking_redirect_prep st res.status).2 = false) :
    RequestBuilder.send_step cfg st res = StepResult.terminal res st.url := by
  have hu := (blocking_prep_preserves st res.status).1
  simp only [RequestBuilder.send_step, hf]
  simp [hu]

/-- C5: on a redirect-indicating status, a missing Location header or a
Location value that fails to resolve against the current URL is not an
error: both engines return the current response as the terminal result,
and the async engine loop completes with that response. -/
theorem missing_location_terminal
    (cfg : ClientCfg) (bcfg : BlockingCfg) (st : PendingRequest)
    (bst : BlockingState) (res : HyperResponse)
    (_hred : res.status = 301 ∨ res.status = 302 ∨ res.status = 303
        ∨ res.status = 307 ∨ res.status = 308)
    (hloc : res.headers.get LOCATION = none
        ∨ ∃ v, res.headers.get LOCATION = some v
            ∧ cfg.resolve st.url v = none ∧ bcfg.resolve bst.url v = none) :
    PendingRequest.poll_step cfg st res = StepResult.terminal res st.url
    ∧ RequestBuilder.send_step bcfg bst res = StepResult.terminal res bst.url
    ∧ ∀ (transport : Nat → HyperResponse) (fuel k : Nat), transport k = res →
        engine_run cfg transport (fuel + 1) k st
          = some (Except.ok (res, st.url)) := by
  have hu := (redirect_prep_preserves st res.status).1
  have hasync : PendingRequest.poll_step cfg st res
      = StepResult.terminal res st.url := by
    cases hb : (redirect_prep st res.status).2 with
    | false => exact poll_step_false hb
    | true =>
      rw [poll_step_true hb]
      rcases hloc with hg | ⟨v, hg, hr, _⟩
      · rw [redirect_dispatch_noloc hg, hu]
      · rw [redirect_dispatch_badloc hg (hu ▸ hr), hu]
  refine ⟨hasync, ?_, ?_⟩
  · rcases hloc with hg | ⟨v, hg, _, hr⟩
    · exact send_step_noloc hg
    · exact send_step_badloc hg
        ((blocking_prep_preserves bst res.status).1 ▸ hr)
  · intro transport fuel k hk
    simp only [engine_run]
    rw [hk, hasync]

/-- Concrete 301 response without a Location header. -/
def res301noloc : HyperResponse := { status := 301, headers := [] }

/-- Concrete initial async state at `urlA`. -/
def stA : PendingRequest :=
  { method := Method.GET, url := urlA, headers := [], body := none,
    urls := [] }

/-- Concrete initial blocking state at `urlA`. -/
def bstA : BlockingState :=
  { method := Method.GET, url := urlA, headers := [], body := none,
    urls := [] }

/-- Witness for C5: a 301 without a Location header is terminal in both
engines. -/
theorem missing_location_terminal_witness :
    PendingRequest.poll_step cfgAsync stA res301noloc
      = StepResult.terminal res301noloc urlA
    ∧ RequestBuilder.send_step cfgBlocking bstA res301noloc
      = StepResult.terminal res301noloc urlA :=
  ⟨(missing_location_terminal cfgAsync cfgBlocking stA bstA res301noloc
      (Or.inl rfl) (Or.inl rfl)).1,
   (missing_location_terminal cfgAsync cfgBlocking stA bstA res301noloc
      (Or.inl rfl) (Or.inl rfl)).2.1⟩

theorem strip_entity_headers_absent (h : HeaderMap) :
    let h4 := (((h.removeAll TRANSFER_ENCODING).removeAll
        CONTENT_ENCODING).removeAll CONTENT_TYPE).removeAll CONTENT_LENGTH
    h4.containsKey TRANSFER_ENCODING = false
    ∧ h4.containsKey CONTENT_ENCODING = false
    ∧ h4.containsKey CONTENT_TYPE = false
    ∧ h4.containsKey CONTENT_LENGTH = false := by
  refine ⟨?_, ?_, ?_, ?_⟩
  · rw [containsKey_removeAll_of_ne _ (by decide),
      containsKey_removeAll_of_ne _ (by decide),
      containsKey_removeAll_of_ne _ (by decide),
      containsKey_removeAll_self]
  · rw [containsKey_removeAll_of_ne _ (by decide),
      containsKey_removeAll_of_ne _ (by decide),
      containsKey_removeAll_self]
  · rw [containsKey_removeAll_of_ne _ (by decide),
      containsKey_removeAll_self]
  · rw [containsKey_removeAll_self]

/-- Concrete 301 response pointing at "/b". -/
def res301B : HyperResponse :=
  { status := 301, headers := [(LOCATION, "/b")] }

/-- Concrete blocking state: a POST to `urlA` with a Content-Type header
and a replayable body. -/
def stB0 : BlockingState :=
  { method := Method.POST, url := urlA,
    headers := [(CONTENT_TYPE, "text/plain")],
    body := some (BlockingBody.reusable [1]), urls := [] }

/-- The blocking state actually produced by one 301 step from `stB0`. -/
def stB1 : BlockingState :=
  { method := Method.GET, url := urlB,
    headers := [(CONTENT_TYPE, "text/plain")],
    body := none, urls := [urlA] }

/-- C1 counterexample: the blocking `RequestBuilder::send` engine, on a
301, clears the body and downgrades the method but does NOT strip the
Content-Type (or other entity) headers: the next attempt issued from
`stB0` still carries Content-Type, contradicting the claim that both
engines strip Transfer-Encoding, Content-Encoding, Content-Type and
Content-Length. -/
theorem blocking_301_keeps_content_type :
    RequestBuilder.send_step cfgBlocking stB0 res301B
      = StepResult.next stB1
    ∧ stB1.headers.containsKey CONTENT_TYPE = true := by
  constructor
  · rfl
  · decide

/-- C1 (amended): on 301/302/303, the async engine clears the body,
strips the Transfer-Encoding, Content-Encoding, Content-Type and
Content-Length headers and downgrades the method to GET unless it is
GET or HEAD, before issuing the next attempt; the blocking engine
likewise clears the body and downgrades the method, but leaves those
four headers in the outgoing collection (their values at the next
attempt are exactly those supplied). -/
theorem redirect_301_sanitize
    (cfg : ClientCfg) (bcfg : BlockingCfg) (st st2 : PendingRequest)
    (bst bst2 : BlockingState) (res : HyperResponse)
    (hs : res.status = 301 ∨ res.status = 302 ∨ res.status = 303) :
    (PendingRequest.poll_step cfg st res = StepResult.next st2 →
      st2.body = none
      ∧ st2.headers.containsKey TRANSFER_ENCODING = false
      ∧ st2.headers.containsKey CONTENT_ENCODING = false
      ∧ st2.headers.containsKey CONTENT_TYPE = false
      ∧ st2.headers.containsKey CONTENT_LENGTH = false
      ∧ st2.method = (if st.method = Method.GET ∨ st.method = Method.HEAD
          then st.method else Method.GET))
    ∧ (RequestBuilder.send_step bcfg bst res = StepResult.next bst2 →
      bst2.body = none
      ∧ bst2.method = (if bst.method = Method.GET ∨ bst.method = Method.HEAD
          then bst.method else Method.GET)
      ∧ bst2.headers.getAll TRANSFER_ENCODING
          = bst.headers.getAll TRANSFER_ENCODING
      ∧ bst2.headers.getAll CONTENT_ENCODING
          = bst.headers.getAll CONTENT_ENCODING
      ∧ bst2.headers.getAll CONTENT_TYPE
          = bst.headers.getAll CONTENT_TYPE
      ∧ bst2.headers.getAll CONTENT_LENGTH
          = bst.headers.getAll CONTENT_LENGTH) := by
  constructor
  · intro h
    have hp := redirect_prep_301 st hs
    have ht : (redirect_prep st res.status).2 = true := by rw [hp]
    rw [poll_step_true ht, hp] at h
    obtain ⟨v, loc, hg, hr, ha, hst2⟩ := redirect_dispatch_next h
    subst hst2
    have h4 := strip_entity_headers_absent st.headers
    refine ⟨rfl, ?_, ?_, ?_, ?_, rfl⟩ <;>
      rw [containsKey_remove_sensitive _ _ _ (by decide) (by decide)
          (by decide),
        containsKey_referer_headers _ _ _ _ (by decide)]
    · exact h4.1
    · exact h4.2.1
    · exact h4.2.2.1
    · exact h4.2.2.2
  · intro h
    have hp := blocking_prep_301 bst hs
    obtain ⟨v, loc, hg, hr, ha, hst2⟩ := send_step_next hp h
    subst hst2
    refine ⟨rfl, rfl, ?_, ?_, ?_, ?_⟩ <;>
      rw [getAll_remove_sensitive _ _ _ (by decide) (by decide) (by decide),
        getAll_referer_headers _ _ _ _ (by decide)]

/-- Concrete async state: a POST to `urlA` with a Content-Type header and
a replayable body. -/
def stA0 : PendingRequest :=
  { method := Method.POST, url := urlA,
    headers := [(CONTENT_TYPE, "text/plain")],
    body := some (some [7]), urls := [] }

/-- The async state actually produced by one 301 step from `stA0`. -/
def stA1 : PendingRequest :=
  { method := Method.GET, url := urlB, headers := [], body := none,
    urls := [urlA] }

/-- Witness for the amended C1 at a concrete POST with a Content-Type
header: the async next attempt has no body and no Content-Type; the
blocking next attempt has no body but still carries Content-Type. -/
theorem redirect_301_sanitize_witness :
    (stA1.body = none ∧ stA1.headers.containsKey CONTENT_TYPE = false)
    ∧ (stB1.body = none
        ∧ stB1.headers.getAll CONTENT_TYPE
            = stB0.headers.getAll CONTENT_TYPE) := by
  have h := redirect_301_sanitize cfgAsync cfgBlocking stA0 stA1 stB0 stB1
    res301B (Or.inl rfl)
  have ha := h.1 rfl
  have hb := h.2 rfl
  exact ⟨⟨ha.1, ha.2.2.2.1⟩, ⟨hb.1, hb.2.2.2.2.1⟩⟩

/-- C2: on 307/308 the engines proceed only when the body is absent or
replayable; a non-replayable body makes the 307/308 response the terminal
result (no error) with method and body state untouched; and whenever the
redirect is followed, the method and body are preserved, a replayable
body being reissued byte-for-byte. -/
theorem redirect_307_preserve
    (cfg : ClientCfg) (bcfg : BlockingCfg) (st st2 : PendingRequest)
    (bst bst2 : BlockingState) (res : HyperResponse)
    (hs : res.status = 307 ∨ res.status = 308) :
    (st.body = some none →
      PendingRequest.poll_step cfg st res = StepResult.terminal res st.url)
    ∧ (PendingRequest.poll_step cfg st res = StepResult.next st2 →
      (st.body = none ∨ ∃ b, st.body = some (some b))
      ∧ st2.method = st.method ∧ st2.body = st.body
      ∧ ∀ b, st.body = some (some b) → attempt_body st2 = b)
    ∧ (∀ bb, bst.body = some bb → can_reset bb = false →
      RequestBuilder.send_step bcfg bst res
        = StepResult.terminal res bst.url)
    ∧ (RequestBuilder.send_step bcfg bst res = StepResult.next bst2 →
      bst2.method = bst.method ∧ bst2.body = bst.body
      ∧ ∀ bb, bst.body = some bb → can_reset bb = true) := by
  have hp := redirect_prep_307 st hs
  have hbp := blocking_prep_307 bst hs
  refine ⟨?_, ?_, ?_, ?_⟩
  · intro hb
    exact poll_step_false (by rw [hp, hb])
  · intro h
    cases hb : st.body with
    | none =>
      rw [poll_step_true (by rw [hp, hb]), hp] at h
      obtain ⟨v, loc, hg, hr, ha, hst2⟩ := redirect_dispatch_next h
      subst hst2
      exact ⟨Or.inl rfl, rfl, hb, fun b hcon => by simp at hcon⟩
    | some o =>
      cases o with
      | none =>
        rw [poll_step_false (by rw [hp, hb])] at h
        simp at h
      | some b =>
        rw [poll_step_true (by rw [hp, hb]), hp] at h
        obtain ⟨v, loc, hg, hr, ha, hst2⟩ := redirect_dispatch_next h
        subst hst2
        refine ⟨Or.inr ⟨b, rfl⟩, rfl, hb, ?_⟩
        intro b2 hb2
        rw [Option.some.injEq, Option.some.injEq] at hb2
        rw [← hb2]
        simp [attempt_body, hb]
  · intro bb hbb hcr
    exact send_step_false (by rw [hbp, hbb]; exact hcr)
  · intro h
    cases hb : bst.body with
    | none =>
      obtain ⟨v, loc, hg, hr, ha, hst2⟩ := send_step_next (by rw [hbp, hb]) h
      subst hst2
      exact ⟨rfl, hb, fun bb hcon => by simp at hcon⟩
    | some bb =>
      cases hcr : can_reset bb with
      | false =>
        rw [send_step_false (by rw [hbp, hb]; exact hcr)] at h
        simp at h
      | true =>
        obtain ⟨v, loc, hg, hr, ha, hst2⟩ := send_step_next
          (by rw [hbp, hb]; exact congrArg (Prod.mk bst) hcr) h
        subst hst2
        refine ⟨rfl, hb, ?_⟩
        intro bb2 hbb2
        rw [Option.some.injEq] at hbb2
        rw [← hbb2]
        exact hcr

/-- Concrete 307 response pointing at "/b". -/
def res307B : HyperResponse :=
  { status := 307, headers := [(LOCATION, "/b")] }

/-- Concrete async state with a non-replayable (one-shot streamed)
body. -/
def stA307 : PendingRequest :=
  { method := Method.POST, url := urlA, headers := [],
    body := some none, urls := [] }

/-- Concrete blocking state with a non-replayable body. -/
def bst307 : BlockingState :=
  { method := Method.POST, url := urlA, headers := [],
    body := some BlockingBody.streamed, urls := [] }

/-- Witness for C2: a 307 with a non-replayable body is terminal (the
redirect is not followed) in both engines. -/
theorem redirect_307_preserve_witness :
    PendingRequest.poll_step cfgAsync stA307 res307B
      = StepResult.terminal res307B urlA
    ∧ RequestBuilder.send_step cfgBlocking bst307 res307B
      = StepResult.terminal res307B urlA :=
  ⟨(redirect_307_preserve cfgAsync cfgBlocking stA307 stA307 bst307 bst307
      res307B (Or.inl rfl)).1 rfl,
   (redirect_307_preserve cfgAsync cfgBlocking stA307 stA307 bst307 bst307
      res307B (Or.inl rfl)).2.2.1 BlockingBody.streamed rfl rfl⟩

theorem poll_step_next_urls {cfg : ClientCfg} {st st2 : PendingRequest}
    {res : HyperResponse}
    (h : PendingRequest.poll_step cfg st res = StepResult.next st2) :
    ∃ loc, st2.urls = st.urls ++ [st.url]
      ∧ cfg.redirect_policy.decide_action loc (st.urls ++ [st.url])
          = Action.Follow := by
  cases hb : (redirect_prep st res.status).2 with
  | false => rw [poll_step_false hb] at h; simp at h
  | true =>
    rw [poll_step_true hb] at h
    obtain ⟨v, loc, hg, hr, ha, hst2⟩ := redirect_dispatch_next h
    have hu := (redirect_prep_preserves st res.status).1
    have hus := (redirect_prep_preserves st res.status).2
    refine ⟨loc, ?_, ?_⟩
    · rw [hst2]
      simp [hu, hus]
    · rw [← hu, ← hus]
      exact ha

theorem engine_run_limited_isSome (cfg : ClientCfg)
    (transport : Nat → HyperResponse) (maxHops : Nat)
    (hpol : cfg.redirect_policy = RedirectPolicy.limited maxHops) :
    ∀ (fuel k : Nat) (st : PendingRequest),
      maxHops + 2 ≤ fuel + st.urls.length →
      st.urls.length ≤ maxHops + 1 →
      (engine_run cfg transport fuel k st).isSome = true := by
  intro fuel
  induction fuel with
  | zero =>
    intro k st h1 h2
    omega
  | succ fuel ih =>
    intro k st h1 h2
    cases hstep : PendingRequest.poll_step cfg st (transport k) with
    | terminal res url => simp [engine_run, hstep]
    | failure e => simp [engine_run, hstep]
    | next st2 =>
      obtain ⟨loc, hurls, hfol⟩ := poll_step_next_urls hstep
      rw [hpol] at hfol
      simp only [RedirectPolicy.decide_action] at hfol
      split at hfol
      · simp at hfol
      · split at hfol
        · simp at hfol
        · rename_i hgt
          simp only [List.length_append, List.length_cons,
            List.length_nil, gt_iff_lt, not_lt] at hgt
          have hlen : st2.urls.length = st.urls.length + 1 := by
            rw [hurls]
            simp
          simp only [engine_run, hstep]
          exact ih (k + 1) st2 (by omega) (by omega)

/-- The transport of the C3 counterexample: the first attempt is
redirected to "/b", every later attempt is redirected to "/a". -/
def transportLoop : Nat → HyperResponse := fun n =>
  if n == 0 then { status := 302, headers := [(LOCATION, "/b")] }
  else { status := 302, headers := [(LOCATION, "/a")] }

/-- C3 counterexample: running the async engine on the chain
`urlA → urlB → urlA` (the candidate `urlA` repeats the first history
entry) fails with a redirect-loop error, but the error carries `urlB` —
the URL of the attempt at which the loop was detected — and not the
repeated URL `urlA` the claim names. -/
theorem loop_error_names_current_not_repeated :
    engine_run cfgAsync transportLoop 3 0 stA
      = some (Except.error (ErrorKind.loopDetected urlB))
    ∧ urlB ≠ urlA := by
  constructor
  · rfl
  · decide

/-- C3 (amended): when the policy answers `LoopDetected` (as the
spec-modelled limit policy does whenever the candidate URL repeats a
history entry), the engines fail with a redirect-loop error carrying the
URL of the current attempt (the most recently visited URL, which need not
be the repeated candidate); `TooManyRedirects` likewise fails with a
redirect-limit error carrying the current attempt's URL; a step failure
ends the engine loop with that error; and under the limit policy the
engine never loops infinitely (bounded fuel always suffices). -/
theorem redirect_loop_errors
    (cfg : ClientCfg) (bcfg : BlockingCfg) (st : PendingRequest)
    (bst : BlockingState) (res : HyperResponse) :
    (∀ v loc, (redirect_prep st res.status).2 = true →
      res.headers.get LOCATION = some v →
      cfg.resolve st.url v = some loc →
      cfg.redirect_policy.decide_action loc (st.urls ++ [st.url])
          = Action.LoopDetected →
      PendingRequest.poll_step cfg st res
        = StepResult.failure (ErrorKind.loopDetected st.url))
    ∧ (∀ v loc, (redirect_prep st res.status).2 = true →
      res.headers.get LOCATION = some v →
      cfg.resolve st.url v = some loc →
      cfg.redirect_policy.decide_action loc (st.urls ++ [st.url])
          = Action.TooManyRedirects →
      PendingRequest.poll_step cfg st res
        = StepResult.failure (ErrorKind.tooManyRedirects st.url))
    ∧ (∀ (maxHops : Nat) (next : Url) (urls : List Url), next ∈ urls →
      RedirectPolicy.decide_action (RedirectPolicy.limited maxHops) next
          urls = Action.LoopDetected)
    ∧ (∀ (transport : Nat → HyperResponse) (fuel k : Nat) (e : ErrorKind),
      PendingRequest.poll_step cfg st (transport k) = StepResult.failure e →
      engine_run cfg transport (fuel + 1) k st = some (Except.error e))
    ∧ (∀ (transport : Nat → HyperResponse) (maxHops : Nat),
      cfg.redirect_policy = RedirectPolicy.limited maxHops →
      ∀ (fuel k : Nat) (st2 : PendingRequest),
        maxHops + 2 ≤ fuel + st2.urls.length →
        st2.urls.length ≤ maxHops + 1 →
        (engine_run cfg transport fuel k st2).isSome = true)
    ∧ (∀ v loc, (blocking_redirect_prep bst res.status).2 = true →
      res.headers.get LOCATION = some v →
      bcfg.resolve bst.url v = some loc →
      bcfg.redirect_policy.decide_action loc (bst.urls ++ [bst.url])
          = Action.LoopDetected →
      RequestBuilder.send_step bcfg bst res
        = StepResult.failure (ErrorKind.loopDetected bst.url))
    ∧ (∀ v loc, (blocking_redirect_prep bst res.status).2 = true →
      res.headers.get LOCATION = some v →
      bcfg.resolve bst.url v = some loc →
      bcfg.redirect_policy.decide_action loc (bst.urls ++ [bst.url])
          = Action.TooManyRedirects →
      RequestBuilder.send_step bcfg bst res
        = StepResult.failure (ErrorKind.tooManyRedirects bst.url)) := by
  have hu := (redirect_prep_preserves st res.status).1
  have hus := (redirect_prep_preserves st res.status).2
  have hbu := (blocking_prep_preserves bst res.status).1
  have hbus := (blocking_prep_preserves bst res.status).2.1
  refine ⟨?_, ?_, ?_, ?_, ?_, ?_, ?_⟩
  · intro v loc ht hg hr ha
    rw [poll_step_true ht,
      redirect_dispatch_loop hg (hu ▸ hr) (by rw [hu, hus]; exact ha), hu]
  · intro v loc ht hg hr ha
    rw [poll_step_true ht,
      redirect_dispatch_toomany hg (hu ▸ hr) (by rw [hu, hus]; exact ha),
      hu]
  · intro maxHops next urls hmem
    simp [RedirectPolicy.decide_action, hmem]
  · intro transport fuel k e hstep
    simp [engine_run, hstep]
  · intro transport maxHops hpol
    exact engine_run_limited_isSome cfg transport maxHops hpol
  · intro v loc ht hg hr ha
    have hpair : blocking_redirect_prep bst res.status
        = ((blocking_redirect_prep bst res.status).1, true) := by
      rw [← ht]
    rw [send_step_loop hpair hg (hbu ▸ hr) (by rw [hbu, hbus]; exact ha),
      hbu]
  · intro v loc ht hg hr ha
    have hpair : blocking_redirect_prep bst res.status
        = ((blocking_redirect_prep bst res.status).1, true) := by
      rw [← ht]
    rw [send_step_toomany hpair hg (hbu ▸ hr) (by rw [hbu, hbus]; exact ha),
      hbu]

/-- The async state reached after the first follow of the C3 chain:
at `urlB` with `urlA` in the history. -/
def stLoop1 : PendingRequest :=
  { method := Method.GET, url := urlB, headers := [], body := none,
    urls := [urlA] }

/-- The second response of the loop transport. -/
def res302A : HyperResponse :=
  { status := 302, headers := [(LOCATION, "/a")] }

/-- Witness for the amended C3: at the state where the candidate repeats
the history, the step fails with the loop error carrying the current URL
`urlB`; the limit policy answers LoopDetected on a repeated candidate;
and the engine with limit policy 10 and fuel 12 always completes. -/
theorem redirect_loop_errors_witness :
    PendingRequest.poll_step cfgAsync stLoop1 res302A
      = StepResult.failure (ErrorKind.loopDetected urlB)
    ∧ RedirectPolicy.decide_action (RedirectPolicy.limited 10) urlA [urlA]
        = Action.LoopDetected
    ∧ (engine_run cfgAsync transportLoop 12 0 stA).isSome = true := by
  have h := redirect_loop_errors cfgAsync cfgBlocking stLoop1 bstA res302A
  refine ⟨?_, ?_, ?_⟩
  · exact h.1 "/a" urlA (by decide) (by decide) (by decide) (by decide)
  · exact h.2.2.1 10 urlA [urlA] (by decide)
  · exact h.2.2.2.2.1 transportLoop 10 rfl 12 0 stA (by decide) (by decide)

end Reqwest
